import Mathlib

/-!
Shallow embedding of `bot_real_time.py` (a Telegram bot that scrapes three
marketplace search pages concurrently and aggregates product listings), with
theorems checking the specification's claims against it.

Modelling conventions:
* Python strings are Lean `String`s (lists of unicode characters).
* `str.strip` / `str.replace` / `float(...)` are modelled by `pyStrip`,
  `pyReplace` and `pyFloat` below.  `pyFloat` covers the finite-decimal
  fragment of Python's `float` grammar (optional sign, ASCII digits, at most
  one decimal point, surrounding whitespace); exponents, `inf`/`nan`,
  underscores and non-ASCII digits never arise from the inputs considered.
* Prices are modelled as exact rationals `ℚ` (the decimal values the parser
  denotes), not IEEE floats.
* The playwright page is modelled by the observable behaviour the code
  branches on: the outcome of `goto`, `wait_for_selector` and
  `query_selector_all`, plus, per result card, the outcome of each
  `query_selector_eval` field extraction (`none` = the call raised).
* `asyncio.gather` is modelled with an explicit completion schedule: tasks
  finish in an arbitrary order `sched`, each writing its result into its own
  slot, and the gathered list is read out in task order.
-/

namespace RU

/-- Python `str.isspace`-style whitespace test, restricted to the whitespace
characters relevant here (ASCII whitespace plus NBSP, thin space, narrow
no-break space). Used by `pyStrip` to model `str.strip()`. -/
def pyIsSpace (c : Char) : Bool :=
  c == ' ' || c == '\t' || c == '\n' || c == '\r' || c == '\x0b' || c == '\x0c' ||
  c == ' ' || c == ' ' || c == ' '

/-- Strip `pyIsSpace` characters from both ends of a character list. -/
def pyStripL (l : List Char) : List Char :=
  ((l.dropWhile pyIsSpace).reverse.dropWhile pyIsSpace).reverse

/-- Model of Python `str.strip()` (no arguments): remove leading and trailing
whitespace. -/
def pyStrip (s : String) : String :=
  String.mk (pyStripL s.toList)

/-- Fuelled worker for `replaceL`: scan left to right; at a position where
the (nonempty) pattern matches, emit the replacement and skip the matched
characters, else keep the character and move on.  Each step consumes at
least one input character, so fuel equal to the input length is enough. -/
def replaceLF (pat repl : List Char) : Nat → List Char → List Char
  | 0, l => l
  | fuel + 1, l =>
    match l with
    | [] => []
    | c :: cs =>
      if pat ≠ [] && pat.isPrefixOf l then
        repl ++ replaceLF pat repl fuel (l.drop pat.length)
      else
        c :: replaceLF pat repl fuel cs

/-- Replace every (non-overlapping, leftmost-first) occurrence of the pattern
`pat` by `repl`, as Python `str.replace` does; the patterns used in the code
are all nonempty. -/
def replaceL (pat repl l : List Char) : List Char :=
  replaceLF pat repl l.length l

/-- Model of Python `str.replace(pat, repl)`. -/
def pyReplace (s pat repl : String) : String :=
  String.mk (replaceL pat.toList repl.toList s.toList)

/-- Value of a list of ASCII decimal digits, most significant first. -/
def digitsToNat (cs : List Char) : Nat :=
  cs.foldl (fun acc c => acc * 10 + (c.toNat - 48)) 0

/-- All characters are ASCII decimal digits. -/
def allDigits (cs : List Char) : Bool :=
  cs.all Char.isDigit

/-- Parse an unsigned decimal numeral: `digits`, `digits.digits`, `.digits`
or `digits.` with at least one digit overall; anything else fails, matching
`float(...)` raising `ValueError`. -/
def parseUnsignedDec (cs : List Char) : Option ℚ :=
  if '.' ∈ cs then
    let ip := cs.takeWhile (fun c => c ≠ '.')
    let rest := cs.dropWhile (fun c => c ≠ '.')
    let fp := rest.drop 1
    if allDigits ip && allDigits fp && (ip ≠ [] || fp ≠ [] : Bool) then
      some ((digitsToNat ip : ℚ) + (digitsToNat fp : ℚ) / (10 ^ fp.length : ℚ))
    else
      none
  else
    if allDigits cs && (cs ≠ [] : Bool) then some (digitsToNat cs) else none

/-- Model of Python `float(s)` on the finite-decimal fragment: surrounding
whitespace is ignored, an optional sign precedes the numeral; `none` models a
raised `ValueError`. -/
def pyFloat (s : String) : Option ℚ :=
  match (pyStrip s).toList with
  | [] => none
  | c :: rest =>
    if c = '+' then parseUnsignedDec rest
    else if c = '-' then (parseUnsignedDec rest).map (fun q => -q)
    else parseUnsignedDec (c :: rest)

/-- The cleaning chain of `bot_real_time.py` lines 26 and 55:
`price_raw.replace('â\u0080\u0089', '').replace('â\u0082', '')
.replace(' ', '').replace(',', '.').strip()`.
The first two replace targets are the literal mojibake character sequences
present in the source bytes (UTF-8 of `â` followed by C1 control characters),
not the ruble sign `₽` or a real thin space. -/
def decimalClean (s : String) : String :=
  pyStrip (pyReplace (pyReplace (pyReplace (pyReplace s ("â\u0080\u0089") ("")) ("â\u0082") ("")) (" ") ("")) (",") ("."))

/-- Decimal price strategy of `parse_wildberries` / `parse_ozon`
(lines 26, 55): clean, then `float(...)`; `none` models the `ValueError`
caught by the per-item handler. -/
def decimalPriceParse (s : String) : Option ℚ :=
  pyFloat (decimalClean s)

/-- `''.join(filter(str.isdigit, price_raw))` of line 84, with `str.isdigit`
modelled on ASCII decimal digits (Python additionally accepts some non-ASCII
digit characters, which do not occur in the inputs considered here). -/
def digitsOnlyClean (s : String) : String :=
  String.mk (s.toList.filter Char.isDigit)

/-- Digits-only price strategy of `parse_yandex_market` (line 84):
`float(''.join(filter(str.isdigit, price_raw)))`. -/
def digitsOnlyPriceParse (s : String) : Option ℚ :=
  pyFloat (digitsOnlyClean s)

/-- One normalized product record, as appended by each parser
(`bot_real_time.py` lines 29–35, 58–64, 87–93). -/
structure Listing where
  title : String
  marketplace : String
  price : ℚ
  url : String
  image : String
deriving Repr, DecidableEq

/-- Outcome of a page-level playwright call (`goto`, `wait_for_selector`,
`query_selector_all`): success, `PlaywrightTimeoutError`, or any other
exception. -/
inductive NavResult where
  | ok
  | timeout
  | exc
deriving Repr, DecidableEq

/-- Observable behaviour of one result card: for each
`query_selector_eval` field extraction, `some s` is the returned text and
`none` models the call raising an exception. -/
structure Card where
  titleRes : Option String
  priceRes : Option String
  hrefRes : Option String
  imageRes : Option String
deriving Repr, DecidableEq

/-- Observable behaviour of the page during one parser's
navigate → wait → query-all sequence; `cards` is the element list returned
by `query_selector_all` (in document order), meaningful when all three page
calls succeed. -/
structure PageBehavior where
  gotoRes : NavResult
  waitRes : NavResult
  queryRes : NavResult
  cards : List Card
deriving Repr, DecidableEq

/-- The per-item body of each parser's `for card in cards[:5]` loop
(lines 23–37, 52–66, 81–95): extract title, raw price, parse the price,
extract link and image, in that order; `none` models the per-item
`except Exception` handler swallowing a failure at any of those steps and
discarding the item. On success the title is stripped and the listing is
tagged with the source's marketplace name. -/
def parseItem (mk : String) (pp : String → Option ℚ) (c : Card) : Option Listing :=
  match c.titleRes with
  | none => none
  | some t =>
    match c.priceRes with
    | none => none
    | some praw =>
      match pp praw with
      | none => none
      | some p =>
        match c.hrefRes with
        | none => none
        | some h =>
          match c.imageRes with
          | none => none
          | some img =>
            some { title := pyStrip t, marketplace := mk, price := p, url := h, image := img }

/-- The shared shape of `parse_wildberries` / `parse_ozon` /
`parse_yandex_market`: if `goto`, `wait_for_selector` or
`query_selector_all` raises (timeout or otherwise), the outer handlers
(lines 38–41, 67–70, 96–99) swallow it and the accumulated `results` list —
still empty — is returned; otherwise the first five cards are processed,
failing items skipped. -/
def parseSource (mk : String) (pp : String → Option ℚ) (pb : PageBehavior) : List Listing :=
  match pb.gotoRes, pb.waitRes, pb.queryRes with
  | NavResult.ok, NavResult.ok, NavResult.ok =>
      (pb.cards.take 5).filterMap (parseItem mk pp)
  | _, _, _ => []

/-- Search URL built by `parse_wildberries` (line 16): the raw query is
interpolated with no percent-encoding. -/
def wildberriesURL (query : String) : String :=
  "https://www.wildberries.ru/catalog/0/search.aspx?search=" ++ query

/-- Search URL built by `parse_ozon` (line 45): raw interpolation. -/
def ozonURL (query : String) : String :=
  "https://www.ozon.ru/search/?text=" ++ query

/-- Search URL built by `parse_yandex_market` (line 74): raw
interpolation. -/
def yandexMarketURL (query : String) : String :=
  "https://market.yandex.ru/search?text=" ++ query

/-- `parse_wildberries` (lines 15–42): decimal price strategy, marketplace
tag `Wildberries`. -/
def parse_wildberries (pb : PageBehavior) (_query : String) : List Listing :=
  parseSource ("Wildberries") decimalPriceParse pb

/-- `parse_ozon` (lines 44–71): decimal price strategy, marketplace tag
`Ozon`. -/
def parse_ozon (pb : PageBehavior) (_query : String) : List Listing :=
  parseSource ("Ozon") decimalPriceParse pb

/-- `parse_yandex_market` (lines 73–100): digits-only price strategy,
marketplace tag `Yandex.Market`. -/
def parse_yandex_market (pb : PageBehavior) (_query : String) : List Listing :=
  parseSource ("Yandex.Market") digitsOnlyPriceParse pb

/-- Environment for one query: the page behaviour each parser observes
during its own navigate → wait → query → extract interaction. -/
structure Env where
  wb : PageBehavior
  oz : PageBehavior
  ym : PageBehavior
deriving Repr, DecidableEq

/-- `asyncio.gather` slot filling: tasks complete in the order `sched`, each
completion storing that task's result into its own slot. -/
def fillSlots (r : Fin 3 → List Listing) (sched : List (Fin 3)) : Fin 3 → Option (List Listing) :=
  sched.foldl (fun acc i => fun j => if j = i then some (r i) else acc j) (fun _ => none)

/-- `results = await asyncio.gather(*tasks)` (line 119): regardless of the
completion order `sched`, the gathered list is read out in task order
(slot 0, slot 1, slot 2). An unfilled slot reads as `[]`; every slot is
filled whenever each task index occurs in `sched`, which `gather` guarantees
by awaiting all tasks. -/
def gather3 (r : Fin 3 → List Listing) (sched : List (Fin 3)) : List (List Listing) :=
  [(fillSlots r sched 0).getD [], (fillSlots r sched 1).getD [], (fillSlots r sched 2).getD []]

/-- The flattening list comprehension of line 123:
`[item for sublist in results for item in sublist]`. -/
def flattenResults (ls : List (List Listing)) : List Listing :=
  ls.foldr (fun a b => a ++ b) []

/-- Which reply path `search_products` takes: the length-validation prompt
(line 105), the nothing-found message (line 126), or one photo message per
aggregated listing (lines 129–143). -/
inductive SearchOutcome where
  | invalidQuery
  | noResults
  | results (items : List Listing)
deriving Repr, DecidableEq

/-- One run of the handler: the reply outcome plus the search URLs the run
navigates to (each parser's `page.goto` target, none when validation
fails). -/
structure SearchRun where
  outcome : SearchOutcome
  navigations : List String
deriving Repr, DecidableEq

/-- The task list of lines 114–118, indexed in source order:
task 0 is Wildberries, task 1 is Ozon, task 2 is Yandex.Market. -/
def tasksOf (env : Env) (query : String) : Fin 3 → List Listing := fun i =>
  if i = 0 then parse_wildberries env.wb query
  else if i = 1 then parse_ozon env.oz query
  else parse_yandex_market env.ym query

/-- `search_products` (lines 102–143): strip the message text, reject
queries shorter than 2 characters before any browsing work, otherwise run
the three parsers concurrently (completion order `sched`), gather in task
order, flatten, and reply. -/
def search_products (msgText : String) (env : Env) (sched : List (Fin 3)) : SearchRun :=
  let query := pyStrip msgText
  if query.length < 2 then
    { outcome := SearchOutcome.invalidQuery, navigations := [] }
  else
    let all := flattenResults (gather3 (tasksOf env query) sched)
    { outcome := if all = [] then SearchOutcome.noResults else SearchOutcome.results all,
      navigations := [wildberriesURL query, ozonURL query, yandexMarketURL query] }

/-! ### Helper lemmas -/

theorem tasksOf_zero (env : Env) (q : String) : tasksOf env q 0 = parse_wildberries env.wb q := rfl

theorem tasksOf_one (env : Env) (q : String) : tasksOf env q 1 = parse_ozon env.oz q := rfl

theorem tasksOf_two (env : Env) (q : String) : tasksOf env q 2 = parse_yandex_market env.ym q := rfl

theorem fillSlots_aux (r : Fin 3 → List Listing) (sched : List (Fin 3)) :
    ∀ (init : Fin 3 → Option (List Listing)) (i : Fin 3),
      i ∈ sched ∨ init i = some (r i) →
      sched.foldl (fun acc k => fun j => if j = k then some (r k) else acc j) init i = some (r i) := by
  induction sched with
  | nil =>
    intro init i h
    rcases h with h | h
    · cases h
    · simpa using h
  | cons k ks ih =>
    intro init i h
    rw [List.foldl_cons]
    apply ih
    rcases h with h | h
    · rcases List.mem_cons.mp h with rfl | hks
      · exact Or.inr (by simp)
      · exact Or.inl hks
    · by_cases hik : i = k
      · subst hik
        exact Or.inr (by simp)
      · exact Or.inr (by simpa [hik] using h)

theorem fillSlots_of_mem (r : Fin 3 → List Listing) (sched : List (Fin 3)) (i : Fin 3)
    (h : i ∈ sched) : fillSlots r sched i = some (r i) :=
  fillSlots_aux r sched (fun _ => none) i (Or.inl h)

theorem fillSlots_cases_aux (r : Fin 3 → List Listing) (sched : List (Fin 3)) :
    ∀ (init : Fin 3 → Option (List Listing)) (i : Fin 3),
      init i = none ∨ init i = some (r i) →
      sched.foldl (fun acc k => fun j => if j = k then some (r k) else acc j) init i = none ∨
        sched.foldl (fun acc k => fun j => if j = k then some (r k) else acc j) init i = some (r i) := by
  induction sched with
  | nil =>
    intro init i h
    simpa using h
  | cons k ks ih =>
    intro init i h
    rw [List.foldl_cons]
    apply ih
    by_cases hik : i = k
    · subst hik
      exact Or.inr (by simp)
    · simpa [hik] using h

theorem fillSlots_cases (r : Fin 3 → List Listing) (sched : List (Fin 3)) (i : Fin 3) :
    fillSlots r sched i = none ∨ fillSlots r sched i = some (r i) :=
  fillSlots_cases_aux r sched (fun _ => none) i (Or.inl rfl)

theorem gather3_complete (r : Fin 3 → List Listing) (sched : List (Fin 3))
    (hs : ∀ i : Fin 3, i ∈ sched) : gather3 r sched = [r 0, r 1, r 2] := by
  unfold gather3
  rw [fillSlots_of_mem r sched 0 (hs 0), fillSlots_of_mem r sched 1 (hs 1),
    fillSlots_of_mem r sched 2 (hs 2)]
  rfl

theorem flattenResults_three (a b c : List Listing) :
    flattenResults [a, b, c] = a ++ b ++ c := by
  simp [flattenResults, List.append_assoc]

/-- On a valid (length ≥ 2 after stripping) query, a run with a complete
completion schedule produces exactly the three parsers' outputs concatenated
in source order, and navigates to the three interpolated search URLs. -/
theorem search_products_valid (msgText : String) (env : Env) (sched : List (Fin 3))
    (hs : ∀ i : Fin 3, i ∈ sched) (hq : 2 ≤ (pyStrip msgText).length) :
    search_products msgText env sched =
      { outcome :=
          if parse_wildberries env.wb (pyStrip msgText) ++ parse_ozon env.oz (pyStrip msgText) ++
              parse_yandex_market env.ym (pyStrip msgText) = [] then SearchOutcome.noResults
          else
            SearchOutcome.results
              (parse_wildberries env.wb (pyStrip msgText) ++ parse_ozon env.oz (pyStrip msgText) ++
                parse_yandex_market env.ym (pyStrip msgText)),
        navigations :=
          [wildberriesURL (pyStrip msgText), ozonURL (pyStrip msgText),
            yandexMarketURL (pyStrip msgText)] } := by
  have hlt : ¬ ((pyStrip msgText).length < 2) := by omega
  simp only [search_products, if_neg hlt, gather3_complete _ sched hs, flattenResults_three,
    tasksOf_zero, tasksOf_one, tasksOf_two]

/-- On an invalid (length < 2 after stripping) query, the run replies with
the validation prompt and performs no navigation, whatever the environment
and schedule. -/
theorem search_products_invalid (msgText : String) (env : Env) (sched : List (Fin 3))
    (hq : (pyStrip msgText).length < 2) :
    search_products msgText env sched =
      { outcome := SearchOutcome.invalidQuery, navigations := [] } := by
  simp only [search_products, if_pos hq]

theorem dropWhile_prefix_eq {p : Char → Bool} {u v : List Char}
    (hu : u.dropWhile p = u) (hv : v <+: u) : v.dropWhile p = v := by
  rw [List.dropWhile_eq_self_iff] at hu ⊢
  intro hl
  obtain ⟨t, rfl⟩ := hv
  have hlu : 0 < (v ++ t).length := by
    rw [List.length_append]
    omega
  have h0 := hu hlu
  rwa [List.get_append _ hl] at h0

theorem pyStripL_eq_rdropWhile (l : List Char) :
    pyStripL l = List.rdropWhile pyIsSpace (l.dropWhile pyIsSpace) := rfl

theorem pyStripL_idem (l : List Char) : pyStripL (pyStripL l) = pyStripL l := by
  rw [pyStripL_eq_rdropWhile l, pyStripL_eq_rdropWhile,
    dropWhile_prefix_eq (List.dropWhile_idempotent pyIsSpace l) (List.rdropWhile_prefix _ _),
    List.rdropWhile_idempotent]

theorem pyStrip_toList (s : String) : (pyStrip s).toList = pyStripL s.toList := rfl

theorem pyStrip_idem (s : String) : pyStrip (pyStrip s) = pyStrip s := by
  show String.mk (pyStripL (pyStrip s).toList) = pyStrip s
  rw [pyStrip_toList, pyStripL_idem]
  rfl

/-- If every character of `l` is non-whitespace, stripping does nothing. -/
theorem pyStripL_of_no_space {l : List Char} (h : ∀ c ∈ l, pyIsSpace c = false) :
    pyStripL l = l := by
  have h1 : l.dropWhile pyIsSpace = l := by
    cases l with
    | nil => rfl
    | cons x xs =>
      rw [List.dropWhile_cons_of_neg]
      simp [h x (by simp)]
  have h2 : l.reverse.dropWhile pyIsSpace = l.reverse := by
    cases hr : l.reverse with
    | nil => rfl
    | cons x xs =>
      rw [List.dropWhile_cons_of_neg]
      have hx : x ∈ l := by
        rw [← List.mem_reverse, hr]
        simp
      simp [h x hx]
  unfold pyStripL
  rw [h1, h2, List.reverse_reverse]

theorem isDigit_not_space {c : Char} (h : c.isDigit = true) : pyIsSpace c = false := by
  by_contra hsp
  rw [Bool.not_eq_false] at hsp
  simp only [pyIsSpace, Bool.or_eq_true, beq_iff_eq] at hsp
  rcases hsp with ((((((((rfl | rfl) | rfl) | rfl) | rfl) | rfl) | rfl) | rfl) | rfl) <;>
    exact absurd h (by decide)

/-- A successfully parsed item carries the source's marketplace tag, and its
title is the `strip` of the raw scraped title. -/
theorem parseItem_shape {mk : String} {pp : String → Option ℚ} {c : Card} {l : Listing}
    (h : parseItem mk pp c = some l) :
    l.marketplace = mk ∧ l.title = pyStrip l.title := by
  unfold parseItem at h
  repeat' split at h
  all_goals cases h
  all_goals exact ⟨rfl, (pyStrip_idem _).symm⟩

/-- Every listing a source contributes comes from one of the first five
cards via `parseItem`. -/
theorem mem_parseSource {mk : String} {pp : String → Option ℚ} {pb : PageBehavior} {l : Listing}
    (h : l ∈ parseSource mk pp pb) :
    ∃ c ∈ pb.cards.take 5, parseItem mk pp c = some l := by
  unfold parseSource at h
  rcases hg : pb.gotoRes <;> rcases hw : pb.waitRes <;> rcases hq : pb.queryRes <;>
    rw [hg, hw, hq] at h <;> simp only [List.mem_filterMap] at h <;> first
      | exact h
      | cases h

theorem parseSource_length_le (mk : String) (pp : String → Option ℚ) (pb : PageBehavior) :
    (parseSource mk pp pb).length ≤ 5 := by
  unfold parseSource
  rcases pb.gotoRes <;> rcases pb.waitRes <;> rcases pb.queryRes <;> simp
  all_goals
    calc ((pb.cards.take 5).filterMap (parseItem mk pp)).length
        ≤ (pb.cards.take 5).length := List.length_filterMap_le _ _
      _ ≤ 5 := by simp

/-- Every listing in a flattened gather came from one of the three tasks. -/
theorem mem_flatten_gather {r : Fin 3 → List Listing} {sched : List (Fin 3)} {l : Listing}
    (h : l ∈ flattenResults (gather3 r sched)) : l ∈ r 0 ∨ l ∈ r 1 ∨ l ∈ r 2 := by
  simp only [flattenResults, gather3, List.foldr, List.append_nil, List.mem_append] at h
  rcases h with h | h | h
  · rcases fillSlots_cases r sched 0 with hc | hc <;> rw [hc] at h
    · cases h
    · exact Or.inl h
  · rcases fillSlots_cases r sched 1 with hc | hc <;> rw [hc] at h
    · cases h
    · exact Or.inr (Or.inl h)
  · rcases fillSlots_cases r sched 2 with hc | hc <;> rw [hc] at h
    · cases h
    · exact Or.inr (Or.inr h)

/-- Any failure of `goto`, `wait_for_selector` or `query_selector_all`
(timeout or other exception) makes the source return the empty list. -/
theorem parseSource_fail {mk : String} {pp : String → Option ℚ} {pb : PageBehavior}
    (h : pb.gotoRes ≠ NavResult.ok ∨ pb.waitRes ≠ NavResult.ok ∨ pb.queryRes ≠ NavResult.ok) :
    parseSource mk pp pb = [] := by
  obtain ⟨g, w, qr, cards⟩ := pb
  rcases g <;> rcases w <;> rcases qr <;> first
    | rfl
    | simp at h

theorem parseUnsignedDec_digits {cs : List Char} (h : ∀ c ∈ cs, c.isDigit = true)
    (hne : cs ≠ []) : parseUnsignedDec cs = some ((digitsToNat cs : ℚ)) := by
  have hdot : ¬ ('.' ∈ cs) := by
    intro hmem
    exact absurd (h '.' hmem) (by decide)
  have hall : allDigits cs = true := by
    unfold allDigits
    rw [List.all_eq_true]
    exact h
  unfold parseUnsignedDec
  rw [if_neg hdot]
  simp [hall, hne]

/-- Closed form of the digits-only strategy: concatenate the digit
characters; fail exactly when there are none. -/
theorem digitsOnly_spec (s : String) :
    digitsOnlyPriceParse s =
      if s.toList.filter Char.isDigit = [] then none
      else some ((digitsToNat (s.toList.filter Char.isDigit) : ℚ)) := by
  have hdig : ∀ c ∈ s.toList.filter Char.isDigit, c.isDigit = true := by
    intro c hc
    exact (List.mem_filter.mp hc).2
  have hstrip : pyStripL (s.toList.filter Char.isDigit) = s.toList.filter Char.isDigit :=
    pyStripL_of_no_space (fun c hc => isDigit_not_space (hdig c hc))
  unfold digitsOnlyPriceParse pyFloat
  rw [show (pyStrip (digitsOnlyClean s)).toList = pyStripL (s.toList.filter Char.isDigit) from rfl,
    hstrip]
  cases hds : s.toList.filter Char.isDigit with
  | nil => simp
  | cons c cs =>
    have hc : c.isDigit = true := by
      apply hdig
      rw [hds]
      exact List.mem_cons_self c cs
    have hplus : ¬ (c = '+') := by
      rintro rfl
      exact absurd hc (by decide)
    have hminus : ¬ (c = '-') := by
      rintro rfl
      exact absurd hc (by decide)
    have hnil : ¬ (c :: cs = []) := by simp
    rw [if_neg hnil]
    show (if c = '+' then parseUnsignedDec cs
        else if c = '-' then (parseUnsignedDec cs).map (fun q => -q)
        else parseUnsignedDec (c :: cs)) = some ((digitsToNat (c :: cs) : ℚ))
    rw [if_neg hplus, if_neg hminus, parseUnsignedDec_digits _ (by simp)]
    intro d hd
    apply hdig
    rw [hds]
    exact hd

/-- Whenever the outcome is a listings reply, the listings are exactly the
flattened gather of the three tasks on the stripped query. -/
theorem search_outcome_results {msg : String} {env : Env} {sched : List (Fin 3)}
    {items : List Listing}
    (h : (search_products msg env sched).outcome = SearchOutcome.results items) :
    items = flattenResults (gather3 (tasksOf env (pyStrip msg)) sched) := by
  unfold search_products at h
  by_cases hq : (pyStrip msg).length < 2
  · rw [if_pos hq] at h
    cases h
  · rw [if_neg hq] at h
    dsimp only at h
    split at h
    · cases h
    · injection h with h
      exact h.symm

theorem flatten_gather_length_le {r : Fin 3 → List Listing} {sched : List (Fin 3)}
    (h : ∀ i, (r i).length ≤ 5) :
    (flattenResults (gather3 r sched)).length ≤ 15 := by
  have hslot : ∀ i : Fin 3, ((fillSlots r sched i).getD []).length ≤ 5 := by
    intro i
    rcases fillSlots_cases r sched i with hc | hc <;> rw [hc]
    · simp
    · simpa using h i
  have h0 := hslot 0
  have h1 := hslot 1
  have h2 := hslot 2
  simp only [flattenResults, gather3, List.foldr, List.append_nil, List.length_append]
  omega

/-! ### Concrete fixtures for witnesses and counterexamples -/

/-- A page whose wait-for-selector step times out. -/
def waitTimeoutPB : PageBehavior :=
  { gotoRes := NavResult.ok, waitRes := NavResult.timeout, queryRes := NavResult.ok, cards := [] }

/-- A page whose navigate/wait/query calls all succeed and return `cs`. -/
def okPB (cs : List Card) : PageBehavior :=
  { gotoRes := NavResult.ok, waitRes := NavResult.ok, queryRes := NavResult.ok, cards := cs }

/-- A well-behaved scraped card. -/
def ozCard : Card :=
  { titleRes := some (" Phone "), priceRes := some ("990"), hrefRes := some ("https://o/1"),
    imageRes := some ("https://o/i") }

/-- The listing `ozCard` yields under the Ozon parser. -/
def ozListing : Listing :=
  { title := ("Phone"), marketplace := ("Ozon"), price := 990, url := ("https://o/1"),
    image := ("https://o/i") }

/-- Environment in which every source times out. -/
def allFailEnv : Env := { wb := waitTimeoutPB, oz := waitTimeoutPB, ym := waitTimeoutPB }

/-- Environment in which only Ozon yields a (single) result. -/
def ozOnlyEnv : Env := { wb := waitTimeoutPB, oz := okPB [ozCard], ym := waitTimeoutPB }

/-! ### Claims -/

/-- C1: for every behaviour of the browsing capability — navigation timeout,
missing selector, zero matching elements, or an exception while extracting
any field of any item — each source extractor returns a (possibly empty)
list without propagating the failure: page-level failures yield `[]`, an
empty element list yields `[]`, a failing item is skipped while the rest of
the batch survives, and `search_products` still returns the other sources'
listings when one source times out. -/
theorem C1_extractors_absorb_failures :
    (∀ pb q, (pb.gotoRes ≠ NavResult.ok ∨ pb.waitRes ≠ NavResult.ok ∨
        pb.queryRes ≠ NavResult.ok) →
      parse_wildberries pb q = [] ∧ parse_ozon pb q = [] ∧ parse_yandex_market pb q = []) ∧
    (∀ pb q, pb.cards = [] →
      parse_wildberries pb q = [] ∧ parse_ozon pb q = [] ∧ parse_yandex_market pb q = []) ∧
    (∀ pb q pre c post,
      pb.cards = pre ++ c :: post → pb.cards.length ≤ 5 →
      parseItem ("Wildberries") decimalPriceParse c = none →
      parse_wildberries pb q = parse_wildberries { pb with cards := pre ++ post } q) ∧
    (∀ env sched msg, (∀ i : Fin 3, i ∈ sched) → 2 ≤ (pyStrip msg).length →
      env.wb.waitRes = NavResult.timeout →
      (search_products msg env sched).outcome =
        if parse_ozon env.oz (pyStrip msg) ++ parse_yandex_market env.ym (pyStrip msg) = []
        then SearchOutcome.noResults
        else SearchOutcome.results
          (parse_ozon env.oz (pyStrip msg) ++ parse_yandex_market env.ym (pyStrip msg))) := by
  refine ⟨?_, ?_, ?_, ?_⟩
  · intro pb q h
    exact ⟨parseSource_fail h, parseSource_fail h, parseSource_fail h⟩
  · intro pb q h
    obtain ⟨g, w, qr, cards⟩ := pb
    dsimp only at h
    subst h
    refine ⟨?_, ?_, ?_⟩ <;> (rcases g <;> rcases w <;> rcases qr <;> rfl)
  · intro pb q pre c post hcards hlen hitem
    obtain ⟨g, w, qr, cards⟩ := pb
    dsimp only at hcards hlen
    subst hcards
    rcases g <;> rcases w <;> rcases qr <;> try rfl
    show ((pre ++ c :: post).take 5).filterMap (parseItem ("Wildberries") decimalPriceParse) =
      ((pre ++ post).take 5).filterMap (parseItem ("Wildberries") decimalPriceParse)
    have hlen2 : (pre ++ post).length ≤ 5 := by
      simp only [List.length_append, List.length_cons] at hlen ⊢
      omega
    rw [List.take_of_length_le hlen, List.take_of_length_le hlen2, List.filterMap_append,
      List.filterMap_append]
    simp [List.filterMap_cons, hitem]
  · intro env sched msg hs hq hw
    rw [search_products_valid msg env sched hs hq]
    dsimp only
    have hwb : parse_wildberries env.wb (pyStrip msg) = [] :=
      parseSource_fail (Or.inr (Or.inl (by rw [hw]; simp)))
    rw [hwb, List.nil_append]

/-- Witness for C1 at concrete inputs: a timed-out page yields `[]`, and a
search in which only Ozon responds returns exactly Ozon's listing. -/
theorem C1_witness :
    parse_wildberries waitTimeoutPB ("ab") = [] ∧
    (search_products ("ab") ozOnlyEnv [0, 1, 2]).outcome = SearchOutcome.results [ozListing] := by
  constructor
  · exact (C1_extractors_absorb_failures.1 waitTimeoutPB ("ab")
      (Or.inr (Or.inl (by decide)))).1
  · have h := C1_extractors_absorb_failures.2.2.2 ozOnlyEnv [0, 1, 2] ("ab")
      (by decide) (by decide) (by decide)
    rw [h]
    decide

/-- C2: the aggregate output is source-major in the fixed configured order
(all Wildberries items, then Ozon, then Yandex.Market), within each source
an order-preserving selection of the per-card parses (document order), and
the whole run is identical for any two complete completion schedules. -/
theorem C2_source_major_deterministic_order :
    ∀ env msg sched sched',
      (∀ i : Fin 3, i ∈ sched) → (∀ i : Fin 3, i ∈ sched') →
      search_products msg env sched = search_products msg env sched' ∧
      (2 ≤ (pyStrip msg).length →
        (search_products msg env sched).outcome =
          if parse_wildberries env.wb (pyStrip msg) ++ parse_ozon env.oz (pyStrip msg) ++
              parse_yandex_market env.ym (pyStrip msg) = [] then SearchOutcome.noResults
          else SearchOutcome.results
            (parse_wildberries env.wb (pyStrip msg) ++ parse_ozon env.oz (pyStrip msg) ++
              parse_yandex_market env.ym (pyStrip msg))) ∧
      (∀ mk pp pb, (parseSource mk pp pb).Sublist (pb.cards.filterMap (parseItem mk pp))) := by
  intro env msg sched sched' hs hs'
  refine ⟨?_, ?_, ?_⟩
  · by_cases hq : (pyStrip msg).length < 2
    · rw [search_products_invalid msg env sched hq, search_products_invalid msg env sched' hq]
    · push_neg at hq
      rw [search_products_valid msg env sched hs hq, search_products_valid msg env sched' hs' hq]
  · intro hq
    rw [search_products_valid msg env sched hs hq]
  · intro mk pp pb
    obtain ⟨g, w, qr, cards⟩ := pb
    rcases g <;> rcases w <;> rcases qr <;>
      first
        | exact List.nil_sublist _
        | exact List.Sublist.filterMap _ (List.take_sublist 5 cards)

/-- Witness for C2: with only Ozon responding, two opposite completion
orders give literally the same run, whose output is Ozon's listing. -/
theorem C2_witness :
    search_products ("ab") ozOnlyEnv [2, 1, 0] = search_products ("ab") ozOnlyEnv [0, 1, 2] ∧
    (search_products ("ab") ozOnlyEnv [2, 1, 0]).outcome = SearchOutcome.results [ozListing] := by
  have h := C2_source_major_deterministic_order ozOnlyEnv ("ab") [2, 1, 0] [0, 1, 2]
    (by decide) (by decide)
  refine ⟨h.1, ?_⟩
  rw [h.2.1 (by decide)]
  decide

/-- A degenerate scraped card: whitespace-only title, negative-looking
price text, empty href. All extraction calls succeed, so nothing fails and
nothing is filtered. -/
def degenerateCard : Card :=
  { titleRes := some ("   "), priceRes := some ("-5"), hrefRes := some (""),
    imageRes := some ("") }

/-- The listing the Wildberries parser builds from `degenerateCard`. -/
def degenerateListing : Listing :=
  { title := (""), marketplace := ("Wildberries"), price := -5, url := (""), image := ("") }

/-- Environment whose only card is the degenerate one. -/
def degenerateEnv : Env := { wb := okPB [degenerateCard], oz := waitTimeoutPB, ym := waitTimeoutPB }

/-- C3 counterexample: a concrete run whose final aggregate output contains
a listing with empty title, negative price and empty url — the code filters
none of these, so the claimed output invariant fails. -/
theorem C3_counterexample :
    (search_products ("ab") degenerateEnv [0, 1, 2]).outcome =
      SearchOutcome.results [degenerateListing] ∧
    degenerateListing.title = ("") ∧ degenerateListing.price < 0 ∧
    degenerateListing.url = ("") := by
  refine ⟨by decide, rfl, by decide, rfl⟩

/-- C3 (amended): every listing in the final aggregate output has a
marketplace drawn from the fixed set and a whitespace-trimmed title; but
the title may be empty, the price negative and the url empty when the
scraped content is degenerate. -/
theorem C3_output_invariant_amended :
    ∀ msg env sched items l,
      (search_products msg env sched).outcome = SearchOutcome.results items →
      l ∈ items →
      (l.marketplace = ("Wildberries") ∨ l.marketplace = ("Ozon") ∨
        l.marketplace = ("Yandex.Market")) ∧
      l.title = pyStrip l.title := by
  intro msg env sched items l hout hmem
  rw [search_outcome_results hout] at hmem
  rcases mem_flatten_gather hmem with hm | hm | hm
  · rw [tasksOf_zero] at hm
    obtain ⟨c, _, hc⟩ := mem_parseSource hm
    obtain ⟨hmk, hti⟩ := parseItem_shape hc
    exact ⟨Or.inl hmk, hti⟩
  · rw [tasksOf_one] at hm
    obtain ⟨c, _, hc⟩ := mem_parseSource hm
    obtain ⟨hmk, hti⟩ := parseItem_shape hc
    exact ⟨Or.inr (Or.inl hmk), hti⟩
  · rw [tasksOf_two] at hm
    obtain ⟨c, _, hc⟩ := mem_parseSource hm
    obtain ⟨hmk, hti⟩ := parseItem_shape hc
    exact ⟨Or.inr (Or.inr hmk), hti⟩

/-- Witness for the amended C3 at a concrete run: Ozon's listing carries the
`Ozon` tag and a trimmed title. -/
theorem C3_amended_witness :
    (ozListing.marketplace = ("Wildberries") ∨ ozListing.marketplace = ("Ozon") ∨
      ozListing.marketplace = ("Yandex.Market")) ∧
    ozListing.title = pyStrip ozListing.title :=
  C3_output_invariant_amended ("ab") ozOnlyEnv [0, 1, 2] [ozListing] ozListing
    (by decide) (by decide)

/-- C4: a message whose stripped text is shorter than 2 characters gets the
validation prompt and triggers no navigation at all, for every environment
and schedule; a stripped query of length at least 2 proceeds to extraction,
navigating to the three search URLs. -/
theorem C4_min_query_length :
    (∀ msg env sched, (pyStrip msg).length < 2 →
      search_products msg env sched =
        { outcome := SearchOutcome.invalidQuery, navigations := [] }) ∧
    (∀ msg env sched, 2 ≤ (pyStrip msg).length →
      (search_products msg env sched).outcome ≠ SearchOutcome.invalidQuery ∧
      (search_products msg env sched).navigations =
        [wildberriesURL (pyStrip msg), ozonURL (pyStrip msg),
          yandexMarketURL (pyStrip msg)]) := by
  constructor
  · intro msg env sched hq
    exact search_products_invalid msg env sched hq
  · intro msg env sched hq
    have hlt : ¬ ((pyStrip msg).length < 2) := by omega
    unfold search_products
    rw [if_neg hlt]
    dsimp only
    constructor
    · split <;> intro hcon <;> cases hcon
    · rfl

/-- Witness for C4: `" a "` strips to a 1-character query and is rejected
without navigation; `"ab"` proceeds and navigates to all three URLs. -/
theorem C4_witness :
    search_products (" a ") allFailEnv [0, 1, 2] =
      { outcome := SearchOutcome.invalidQuery, navigations := [] } ∧
    (search_products ("ab") allFailEnv [0, 1, 2]).navigations =
      [wildberriesURL ("ab"), ozonURL ("ab"), yandexMarketURL ("ab")] := by
  constructor
  · exact C4_min_query_length.1 (" a ") allFailEnv [0, 1, 2] (by decide)
  · have h := (C4_min_query_length.2 ("ab") allFailEnv [0, 1, 2] (by decide)).2
    rw [h]
    decide

/-- C5: on the spec's example decimal price string, the code's cleaning
chain removes the interior spaces and converts the comma, but leaves the
ruble sign in place (its replace targets are the mojibake byte sequences
found in the source, not the currency sign), so `float(...)` raises and the
parse fails instead of yielding `1234.56`. -/
theorem C5_decimal_example_fails :
    decimalClean ("1 234,56 ₽") = ("1234.56₽") ∧
    decimalPriceParse ("1 234,56 ₽") = none ∧
    decimalPriceParse ("1234,56") = pyFloat ("1234.56") := by
  refine ⟨by decide, by decide, rfl⟩

/-- C6 counterexample: the decimal strategy accepts a negative parsed
result — the cleaned string `"-5"` parses to `-5` instead of failing, and
the surrounding item is kept with its negative price, not discarded. -/
theorem C6_counterexample :
    decimalPriceParse ("-5") = some (-5) ∧
    parseItem ("Wildberries") decimalPriceParse degenerateCard = some degenerateListing := by
  refine ⟨by decide, by decide⟩

/-- C6 (amended): both strategies treat an empty cleaned string as a
failure, never as a price of zero, and the digits-only strategy can never
produce a negative result; but the decimal strategy does not reject a
negative parsed result — the item is kept with its negative price. -/
theorem C6_empty_and_negative_amended :
    (∀ s, decimalClean s = ("") → decimalPriceParse s = none) ∧
    (∀ s, digitsOnlyClean s = ("") → digitsOnlyPriceParse s = none) ∧
    (∀ s q, digitsOnlyPriceParse s = some q → 0 ≤ q) ∧
    decimalPriceParse ("-5") = some (-5) := by
  refine ⟨?_, ?_, ?_, by decide⟩
  · intro s h
    unfold decimalPriceParse
    rw [h]
    decide
  · intro s h
    unfold digitsOnlyPriceParse
    rw [h]
    decide
  · intro s q h
    rw [digitsOnly_spec] at h
    split at h
    · cases h
    · injection h with h
      rw [← h]
      exact Nat.cast_nonneg _

/-- Witness for the amended C6: a whitespace-only price string cleans to
empty and fails, and the digits-only parse of the example string is
non-negative. -/
theorem C6_amended_witness :
    decimalPriceParse (" ") = none ∧ (0 : ℚ) ≤ 12990 :=
  ⟨C6_empty_and_negative_amended.1 (" ") (by decide),
    C6_empty_and_negative_amended.2.2.1 ("12 990 ₽") 12990 (by decide)⟩

/-- C7: the code interpolates the raw query into each search URL with no
percent-encoding — for the query `a&b` every navigated URL embeds the bare
`&`, where the claim requires `a%26b`. Evaluated at the failing input. -/
theorem C7_no_percent_encoding :
    wildberriesURL ("a&b") = ("https://www.wildberries.ru/catalog/0/search.aspx?search=a&b") ∧
    ozonURL ("a&b") = ("https://www.ozon.ru/search/?text=a&b") ∧
    yandexMarketURL ("a&b") = ("https://market.yandex.ru/search?text=a&b") ∧
    (search_products ("a&b") allFailEnv [0, 1, 2]).navigations =
      [("https://www.wildberries.ru/catalog/0/search.aspx?search=a&b"),
        ("https://www.ozon.ru/search/?text=a&b"),
        ("https://market.yandex.ru/search?text=a&b")] := by
  refine ⟨rfl, rfl, rfl, by decide⟩

/-- C8: each source contributes at most 5 listings for every page behaviour,
and the flattened aggregate never exceeds 5 × 3 = 15 entries. -/
theorem C8_per_source_cap :
    (∀ pb q, (parse_wildberries pb q).length ≤ 5 ∧ (parse_ozon pb q).length ≤ 5 ∧
      (parse_yandex_market pb q).length ≤ 5) ∧
    (∀ msg env sched items,
      (search_products msg env sched).outcome = SearchOutcome.results items →
      items.length ≤ 15) := by
  constructor
  · intro pb q
    exact ⟨parseSource_length_le _ _ pb, parseSource_length_le _ _ pb,
      parseSource_length_le _ _ pb⟩
  · intro msg env sched items hout
    rw [search_outcome_results hout]
    apply flatten_gather_length_le
    intro i
    by_cases h0 : i = 0
    · subst h0
      rw [tasksOf_zero]
      exact parseSource_length_le _ _ _
    by_cases h1 : i = 1
    · subst h1
      rw [tasksOf_one]
      exact parseSource_length_le _ _ _
    · show (if i = 0 then _ else if i = 1 then _ else parse_yandex_market env.ym _).length ≤ 5
      rw [if_neg h0, if_neg h1]
      exact parseSource_length_le _ _ _

/-- Witness for C8 at concrete inputs: a timed-out source is within the cap,
and the concrete aggregate of the Ozon-only run is within 15. -/
theorem C8_witness :
    (parse_wildberries waitTimeoutPB ("ab")).length ≤ 5 ∧
    ([ozListing] : List Listing).length ≤ 15 :=
  ⟨(C8_per_source_cap.1 waitTimeoutPB ("ab")).1,
    C8_per_source_cap.2 ("ab") ozOnlyEnv [0, 1, 2] [ozListing] (by decide)⟩

/-- C9: the digits-only strategy yields `12990` on the example string
`"12 990 ₽"`, and fails for an item whose price text retains no digit
characters after discarding. -/
theorem C9_digits_only_example :
    digitsOnlyPriceParse ("12 990 ₽") = some (12990 : ℚ) ∧
    (∀ s, digitsOnlyClean s = ("") → digitsOnlyPriceParse s = none) := by
  refine ⟨by decide, ?_⟩
  intro s h
  unfold digitsOnlyPriceParse
  rw [h]
  decide

/-- Witness for C9: a price text with no digits at all fails. -/
theorem C9_witness : digitsOnlyPriceParse ("нет цены") = none :=
  C9_digits_only_example.2 ("нет цены") (by decide)

/-- C10 (implicit): the digits-only strategy returns exactly the number
formed by concatenating every digit character in order (ignoring all
separators, including a decimal comma — so `"1 234,56"` yields `123456`),
failing only when no digits remain, and every successful result is a
non-negative integer-valued rational. -/
theorem C10_digit_concatenation :
    (∀ s, digitsOnlyPriceParse s =
      if s.toList.filter Char.isDigit = [] then none
      else some ((digitsToNat (s.toList.filter Char.isDigit) : ℚ))) ∧
    digitsOnlyPriceParse ("1 234,56") = some (123456 : ℚ) ∧
    (∀ s q, digitsOnlyPriceParse s = some q → 0 ≤ q ∧ ∃ n : Nat, q = (n : ℚ)) := by
  refine ⟨digitsOnly_spec, by decide, ?_⟩
  intro s q h
  rw [digitsOnly_spec] at h
  split at h
  · cases h
  · injection h with h
    exact ⟨h ▸ Nat.cast_nonneg _, _, h.symm⟩

/-- Witness for C10: the fraction-carrying example parses to the
non-negative integer 123456. -/
theorem C10_witness : (0 : ℚ) ≤ 123456 ∧ ∃ n : Nat, (123456 : ℚ) = (n : ℚ) :=
  C10_digit_concatenation.2.2 ("1 234,56") 123456 (by decide)

end RU
